import Mathlib

/-!
Verification of the `base-encryption` library (v3 "common-encryption" core).

The development shallowly embeds the two source modules:

* `src/crypto-utils.js` — byte/hex/string conversions, `deriveKey` argument
  validation, `hashData` dispatch;
* `src/index.js` — `oneWayEncrypt`, `oneWayCompare`, `twoWayEncrypt`,
  `twoWayDecrypt`, the `SECURITY_LEVELS` table and iteration resolution.

Byte arrays (`Uint8Array` / `ArrayBuffer`) are modelled as `List Nat` whose
elements are < 256 (the `Uint8Array` range); hypotheses state the range where
it matters.  JS numbers are modelled as `Rat` (exact for every value the
claims quantify over; the non-finite values NaN/Infinity are outside the
model — `Number.isInteger` rejects them exactly as it rejects non-integer
rationals).  The platform cryptography provider (`crypto.subtle`:
PBKDF2, AES-GCM, SHA digests) is, per the specification, an external trusted
collaborator: it is modelled as an abstract provider structure together with
the functional contract (`GCMProvider.Lawful`) the platform guarantees
(AES-GCM decryption inverts encryption under the same key/IV, the output is
ciphertext followed by a 16-byte tag, outputs are bytes).  PBKDF2 is a
deterministic function of (passphrase, salt, iterations), so a derived key is
represented by that defining triple.  The environment's randomness source is
surfaced as an explicit `entropy` byte list consumed by `generateRandomBytes`.
-/

/-! ### JS primitives: whitespace, hex digits -/

/-- Characters matched by the JS regexp `\s` (used by
`hexToArrayBuffer`'s `hex.replace(/\s/g, '')`). -/
def jsIsWhitespace (c : Char) : Bool :=
  [0x9, 0xA, 0xB, 0xC, 0xD, 0x20, 0xA0, 0x1680,
   0x2028, 0x2029, 0x202F, 0x205F, 0x3000, 0xFEFF].contains c.toNat ||
  (0x2000 <= c.toNat && c.toNat <= 0x200A)

/-- Characters matched by the JS regexp `[0-9a-fA-F]` in `hexToArrayBuffer`. -/
def isHexDigitJs (c : Char) : Bool :=
  ('0' ≤ c && c ≤ '9') || ('a' ≤ c && c ≤ 'f') || ('A' ≤ c && c ≤ 'F')

/-- Value of a hex digit, as used by `parseInt(-, 16)` on validated digits. -/
def hexDigitValue (c : Char) : Nat :=
  if '0' ≤ c && c ≤ '9' then c.toNat - 48
  else if 'a' ≤ c && c ≤ 'f' then c.toNat - 87
  else if 'A' ≤ c && c ≤ 'F' then c.toNat - 55
  else 0

/-- Lowercase hex digit character, as produced by `Number.prototype.toString(16)`. -/
def hexDigitChar (n : Nat) : Char :=
  if n < 10 then Char.ofNat (48 + n) else Char.ofNat (87 + n)

/-! ### crypto-utils.js: buffer/hex/string conversions -/

/-- Embeds `byte.toString(16).padStart(2, '0')` for a byte value (0..255,
the `Uint8Array` element range): two lowercase hex digits. -/
def byteToHex (b : Nat) : List Char := [hexDigitChar (b / 16), hexDigitChar (b % 16)]

/-- Embeds `arrayBufferToHex` (crypto-utils.js:60-65): map each byte of the
`Uint8Array` view to its zero-padded lowercase hex form and join. -/
def arrayBufferToHex (bs : List Nat) : String := String.mk (bs.flatMap byteToHex)

/-- Embeds the parsing loop of `hexToArrayBuffer` (crypto-utils.js:89-92):
`parseInt(hex.substr(i, 2), 16)` for each consecutive digit pair.  Called
only after validation, so every character is a hex digit. -/
def hexPairs : List Char → List Nat
  | c1 :: c2 :: rest => (16 * hexDigitValue c1 + hexDigitValue c2) :: hexPairs rest
  | _ => []

/-- Embeds `hexToArrayBuffer` (crypto-utils.js:73-95).  The JS function first
strips every `\s` character (`hex.replace(/\s/g, '')`), then throws on odd
length or on a character outside `[0-9a-fA-F]`, and otherwise parses digit
pairs.  Thrown errors are modelled as `Except.error` of the message. -/
def hexToArrayBuffer (hex : String) : Except String (List Nat) :=
  let cs := hex.data.filter (fun c => !(jsIsWhitespace c))
  if cs.length % 2 ≠ 0 then
    Except.error "Hex string must have an even number of characters"
  else if !(cs.all isHexDigitJs) then
    Except.error "Invalid hexadecimal string"
  else
    Except.ok (hexPairs cs)

/-! ### crypto-utils.js: UTF-8 (TextEncoder / TextDecoder) -/

/-- UTF-8 encoding of one Unicode scalar value, as performed by
`TextEncoder.prototype.encode`. -/
def utf8EncodeChar (c : Char) : List Nat :=
  let v := c.toNat
  if v < 0x80 then [v]
  else if v < 0x800 then [0xC0 + v / 64, 0x80 + v % 64]
  else if v < 0x10000 then [0xE0 + v / 4096, 0x80 + v / 64 % 64, 0x80 + v % 64]
  else [0xF0 + v / 262144, 0x80 + v / 4096 % 64, 0x80 + v / 64 % 64, 0x80 + v % 64]

/-- Embeds `stringToArrayBuffer` (crypto-utils.js:102-105):
`new TextEncoder().encode(str)`, i.e. the UTF-8 bytes of the string. -/
def stringToArrayBuffer (s : String) : List Nat := s.data.flatMap utf8EncodeChar

/-- Is `b` a UTF-8 continuation byte (`10xxxxxx`)? -/
def isUtf8Cont (b : Nat) : Prop := 0x80 ≤ b ∧ b < 0xC0

instance (b : Nat) : Decidable (isUtf8Cont b) :=
  inferInstanceAs (Decidable (_ ∧ _))

/-- Fuel-indexed UTF-8 decoder.  `fuel` only needs to bound the number of
decoded characters (each step consumes at least one byte), so
`fuel = input length` always suffices.  Ill-formed byte groups decode to
U+FFFD as `TextDecoder('utf-8')` (non-fatal mode) does; the grouping of
ill-formed input is simplified (one replacement per failed lead byte), which
agrees with `TextDecoder` on every well-formed input. -/
def utf8DecodeAux : Nat → List Nat → List Char
  | 0, _ => []
  | _ + 1, [] => []
  | fuel + 1, b :: rest =>
    if b < 0x80 then Char.ofNat b :: utf8DecodeAux fuel rest
    else if b < 0xC2 then Char.ofNat 0xFFFD :: utf8DecodeAux fuel rest
    else if b < 0xE0 then
      if 1 ≤ rest.length ∧ isUtf8Cont (rest.getD 0 0) then
        Char.ofNat ((b - 0xC0) * 64 + (rest.getD 0 0 - 0x80)) ::
          utf8DecodeAux fuel (rest.drop 1)
      else Char.ofNat 0xFFFD :: utf8DecodeAux fuel rest
    else if b < 0xF0 then
      if 2 ≤ rest.length ∧ isUtf8Cont (rest.getD 0 0) ∧ isUtf8Cont (rest.getD 1 0) then
        Char.ofNat ((b - 0xE0) * 4096 + (rest.getD 0 0 - 0x80) * 64 + (rest.getD 1 0 - 0x80)) ::
          utf8DecodeAux fuel (rest.drop 2)
      else Char.ofNat 0xFFFD :: utf8DecodeAux fuel rest
    else if b < 0xF5 then
      if 3 ≤ rest.length ∧ isUtf8Cont (rest.getD 0 0) ∧ isUtf8Cont (rest.getD 1 0) ∧
          isUtf8Cont (rest.getD 2 0) then
        Char.ofNat ((b - 0xF0) * 262144 + (rest.getD 0 0 - 0x80) * 4096 +
          (rest.getD 1 0 - 0x80) * 64 + (rest.getD 2 0 - 0x80)) ::
          utf8DecodeAux fuel (rest.drop 3)
      else Char.ofNat 0xFFFD :: utf8DecodeAux fuel rest
    else Char.ofNat 0xFFFD :: utf8DecodeAux fuel rest

/-- Embeds `arrayBufferToString` (crypto-utils.js:112-115):
`new TextDecoder('utf-8').decode(buffer)`. -/
def arrayBufferToString (bs : List Nat) : String := String.mk (utf8DecodeAux bs.length bs)

/-! ### index.js: JSON serialization of structured input

`objToString` applies `JSON.stringify` to object-typed input.  `JSON.stringify`
is embedded for the JSON-serializable values (null, booleans, integer numbers,
strings, arrays, objects with string keys). -/

/-- JSON-serializable structured values (the `typeof data === 'object'` inputs
of `twoWayEncrypt`).  Numbers are restricted to integers, for which
`JSON.stringify`'s number formatting coincides with `Int` printing. -/
inductive Json where
  | null
  | bool (b : Bool)
  | num (n : Int)
  | str (s : String)
  | arr (elems : List Json)
  | obj (members : List (String × Json))

/-- Decimal digits of `n`, most significant first (empty for `n = 0`); the
first argument is recursion fuel, `n` itself always suffices. -/
def natDigitsAux : Nat → Nat → List Char
  | 0, _ => []
  | fuel + 1, n => if n = 0 then [] else natDigitsAux fuel (n / 10) ++ [hexDigitChar (n % 10)]

/-- Decimal form of a natural number, as JS `String(n)` prints it. -/
def natToString (n : Nat) : String :=
  if n = 0 then "0" else String.mk (natDigitsAux n n)

/-- Embeds the JS number-to-string conversion for integer values (used by
`JSON.stringify` on numbers). -/
def intToString (i : Int) : String :=
  if i < 0 then "-" ++ natToString i.natAbs else natToString i.natAbs

/-- String-character escaping performed by `JSON.stringify`. -/
def jsonEscapeChar (c : Char) : String :=
  if c = '"' then "\\\""
  else if c = '\\' then "\\\\"
  else if c = '\x08' then "\\b"
  else if c = '\t' then "\\t"
  else if c = '\n' then "\\n"
  else if c = '\x0c' then "\\f"
  else if c = '\r' then "\\r"
  else if c.toNat < 0x20 then
    String.mk ['\\', 'u', '0', '0', hexDigitChar (c.toNat / 16), hexDigitChar (c.toNat % 16)]
  else String.mk [c]

/-- JSON string literal form of `s` (`JSON.stringify` on a string). -/
def jsonQuote (s : String) : String :=
  "\"" ++ String.join (s.data.map jsonEscapeChar) ++ "\""

mutual

/-- Embeds `JSON.stringify` on the modelled JSON values. -/
def Json.stringify : Json → String
  | .null => "null"
  | .bool true => "true"
  | .bool false => "false"
  | .num n => intToString n
  | .str s => jsonQuote s
  | .arr es => "[" ++ Json.stringifyElems es ++ "]"
  | .obj ms => "\x7b" ++ Json.stringifyMembers ms ++ "\x7d"

/-- Comma-separated serialization of array elements. -/
def Json.stringifyElems : List Json → String
  | [] => ""
  | [j] => Json.stringify j
  | j :: rest => Json.stringify j ++ "," ++ Json.stringifyElems rest

/-- Comma-separated serialization of object members. -/
def Json.stringifyMembers : List (String × Json) → String
  | [] => ""
  | [(k, j)] => jsonQuote k ++ ":" ++ Json.stringify j
  | (k, j) :: rest => jsonQuote k ++ ":" ++ Json.stringify j ++ "," ++ Json.stringifyMembers rest

end

/-! ### index.js: input coercion and falsiness -/

/-- Plaintext input accepted by the public API: text, or a structured
(object-typed) value.  `isObject` (index.js:27-29) is true exactly for the
`.obj`/`.arr`-style structured branch. -/
inductive PlainData where
  | str (s : String)
  | objData (j : Json)

/-- Embeds `objToString` (index.js:31-33): structured values are
`JSON.stringify`ed, text passes through. -/
def objToString : PlainData → String
  | .str s => s
  | .objData j => Json.stringify j

/-- JS falsiness of a `PlainData` argument: the empty string is falsy, every
object is truthy. -/
def PlainData.isFalsy : PlainData → Bool
  | .str s => s == ""
  | .objData _ => false

/-- JS falsiness of an optional string argument (`undefined`/`null`/`""`). -/
def falsyStr : Option String → Bool
  | none => true
  | some s => s == ""

/-! ### index.js: security levels and iteration resolution -/

/-- Default PBKDF2 iteration count (index.js:13). -/
def PBKDF2_ITERATIONS : Nat := 600000

/-- Salt size in bytes (index.js:14). -/
def SALT_SIZE : Nat := 16

/-- IV size in bytes (index.js:15). -/
def IV_SIZE : Nat := 12

/-- Value read from `options.iterations` / computed as the iteration count.
`num q` is a JS number; `protoMember name` is a non-number value inherited
from `Object.prototype` (a function, or for `__proto__` an object) — such
values are truthy and are not positive integers. -/
inductive IterValue where
  | num (q : Rat)
  | protoMember (name : String)
deriving DecidableEq

/-- Property names every object literal inherits from `Object.prototype`
(data/accessor properties present in any standard ECMAScript realm; all of
their values are truthy non-numbers). -/
def objectPrototypeKeys : List String :=
  ["constructor", "hasOwnProperty", "isPrototypeOf", "propertyIsEnumerable",
   "toLocaleString", "toString", "valueOf",
   "__defineGetter__", "__defineSetter__", "__lookupGetter__", "__lookupSetter__",
   "__proto__"]

/-- Embeds the JS property access `SECURITY_LEVELS[name]` on the object
literal of index.js:19-24.  Own properties are the four named levels; any
other access falls through to the `Object.prototype` chain, where the keys in
`objectPrototypeKeys` are found (truthy non-number values) and everything
else is `undefined` (`none`). -/
def SECURITY_LEVELS (name : String) : Option IterValue :=
  if name = "maximum" then some (.num 600000)
  else if name = "high" then some (.num 100000)
  else if name = "standard" then some (.num 10000)
  else if name = "fast" then some (.num 1000)
  else if name ∈ objectPrototypeKeys then some (.protoMember name)
  else none

/-- Options object accepted by `twoWayEncrypt`/`twoWayDecrypt`.
`iterations = some q` models `options.iterations` holding the JS number `q`
(`typeof options.iterations === 'number'`); `none` models it being absent or
a non-number.  `securityLevel` models `options.securityLevel` being a string
or absent. -/
structure EncOptions where
  iterations : Option Rat
  securityLevel : Option String
deriving DecidableEq

/-- Embeds the iteration-count resolution expression that appears verbatim in
both `twoWayEncrypt` (index.js:90-94) and `twoWayDecrypt` (index.js:151-155):

`typeof options.iterations === 'number' ? options.iterations
  : (options.securityLevel && SECURITY_LEVELS[options.securityLevel])
  ? SECURITY_LEVELS[options.securityLevel] : PBKDF2_ITERATIONS`.

The middle condition is truthy iff `securityLevel` is a non-empty string and
the property access yields a truthy value (a level count or an inherited
`Object.prototype` member). -/
def resolveIterations (options : EncOptions) : IterValue :=
  match options.iterations with
  | some q => .num q
  | none =>
    match options.securityLevel with
    | some level =>
      if level ≠ "" then
        match SECURITY_LEVELS level with
        | some v => v
        | none => .num (PBKDF2_ITERATIONS : Nat)
      else .num (PBKDF2_ITERATIONS : Nat)
    | none => .num (PBKDF2_ITERATIONS : Nat)

/-! ### crypto-utils.js: deriveKey -/

/-- Does `iterations` pass `Number.isInteger(iterations) && iterations >= 1`?
Inherited prototype members are not numbers at all. -/
def IterValue.isPositiveInteger : IterValue → Bool
  | .num q => q.den == 1 && 1 ≤ q
  | .protoMember _ => false

/-- A PBKDF2-derived AES-GCM key.  PBKDF2-HMAC-SHA256 is a deterministic
function of (passphrase, salt, iterations) computed by the trusted platform
provider, so the key is represented by that defining triple (determinism —
the only property the library relies on — is then definitional). -/
structure DerivedKey where
  passphrase : String
  salt : List Nat
  iterations : Rat
deriving DecidableEq

/-- Embeds the validation of `deriveKey` (crypto-utils.js:125-136): the
passphrase must be a non-empty string, the salt exactly 16 bytes, the
iteration count a positive integer (`!Number.isInteger(it) || it < 1`
throws).  After validation the trusted platform derives the key. -/
def deriveKey (passphrase : String) (salt : List Nat) (iterations : IterValue) :
    Except String DerivedKey :=
  if passphrase = "" then Except.error "Passphrase must be a non-empty string"
  else if salt.length ≠ 16 then Except.error "Salt must be a Uint8Array of 16 bytes"
  else
    match iterations with
    | .protoMember _ => Except.error "Iterations must be a positive integer"
    | .num q =>
      if !(q.den == 1 && 1 ≤ q) then Except.error "Iterations must be a positive integer"
      else Except.ok ⟨passphrase, salt, q⟩

/-! ### The trusted platform provider -/

/-- The platform's AES-256-GCM operations (`crypto.subtle.encrypt` /
`crypto.subtle.decrypt` with `tagLength: 128`).  `encrypt key iv plaintext`
returns ciphertext with the 16-byte authentication tag appended;
`decrypt key iv data` returns the plaintext, or `none` when authentication
fails (the `OperationError` throw). -/
structure GCMProvider where
  encrypt : DerivedKey → List Nat → List Nat → List Nat
  decrypt : DerivedKey → List Nat → List Nat → Option (List Nat)

/-- Functional contract of AES-GCM guaranteed by the platform: decryption
under the same key and IV inverts encryption, the output is the ciphertext
(same length as the plaintext) followed by a 16-byte tag, and outputs are
byte values. -/
structure GCMProvider.Lawful (P : GCMProvider) : Prop where
  roundtrip : ∀ key iv pt, P.decrypt key iv (P.encrypt key iv pt) = some pt
  length_encrypt : ∀ key iv pt, (P.encrypt key iv pt).length = pt.length + 16
  bytes_encrypt : ∀ key iv pt, (∀ b ∈ pt, b < 256) → ∀ b ∈ P.encrypt key iv pt, b < 256

/-- The platform's digest operations: `digest alg data` is the lowercase hex
SHA digest of the UTF-8 bytes of `data` (crypto.subtle.digest followed by
`arrayBufferToHex`); `md5` is the crypto-js MD5 hex digest. -/
structure HashProvider where
  digest : String → String → String
  md5 : String → String

/-- Embeds `hashData` (crypto-utils.js:176-198): MD5 via crypto-js, SHA
algorithms via the Web Crypto digest, anything else throws. -/
def hashData (H : HashProvider) (data : String) (algorithm : String) : Except String String :=
  if algorithm = "MD5" then Except.ok (H.md5 data)
  else if algorithm = "SHA-1" ∨ algorithm = "SHA-256" ∨
      algorithm = "SHA-384" ∨ algorithm = "SHA-512" then
    Except.ok (H.digest algorithm data)
  else Except.error "Unsupported algorithm"

/-! ### index.js: public API -/

/-- Embeds `oneWayEncrypt` (index.js:41-52): `undefined` (`none`) on falsy
data, otherwise the SHA-256 (or MD5) hex digest; internal errors are caught
and become `undefined`. -/
def oneWayEncrypt (H : HashProvider) (data : Option String) (sha : Bool) : Option String :=
  match data with
  | none => none
  | some d =>
    if d == "" then none
    else (hashData H d (if sha then "SHA-256" else "MD5")).toOption

/-- Result of `oneWayCompare`: either the pass-through of the `cypher`
argument (returned when an input is falsy) or a boolean comparison result. -/
inductive CompareResult where
  | passthrough (cypher : Option String)
  | bool (b : Bool)
deriving DecidableEq

/-- Embeds `oneWayCompare` (index.js:61-71): falsy input returns `cypher`
itself; otherwise the candidate is hashed with `oneWayEncrypt` and compared
with `===`. -/
def oneWayCompare (H : HashProvider) (cypher compare : Option String) (sha : Bool) :
    CompareResult :=
  if falsyStr cypher || falsyStr compare then .passthrough cypher
  else
    match oneWayEncrypt H compare sha with
    | some hashed => .bool (cypher == some hashed)
    | none => .bool false

/-- Embeds `twoWayEncrypt` (index.js:83-133).  `entropy` is the stream of
bytes produced by the platform's `getRandomValues`: the first 16 bytes become
the salt, the next 12 the IV (`generateRandomBytes(SALT_SIZE)` then
`generateRandomBytes(IV_SIZE)`).  Falsy data or passphrase short-circuits to
`null`; any thrown error (in particular `deriveKey` validation) is caught and
becomes `null`.  On success the result is
`hex(salt) + hex(iv) + hex(authTag) + hex(ciphertext)` where the tag is the
last 16 bytes of the AES-GCM output (`slice(-16)`) and the ciphertext the
rest (`slice(0, -16)`). -/
def twoWayEncrypt (P : GCMProvider) (entropy : List Nat) (data : Option PlainData)
    (passphrase : Option String) (options : EncOptions) : Option String :=
  match data, passphrase with
  | some d, some pass =>
    if d.isFalsy || pass == "" then none
    else
      let iterations := resolveIterations options
      let plaintextBuffer := stringToArrayBuffer (objToString d)
      let salt := entropy.take SALT_SIZE
      let iv := (entropy.drop SALT_SIZE).take IV_SIZE
      match deriveKey pass salt iterations with
      | .error _ => none
      | .ok key =>
        let encrypted := P.encrypt key iv plaintextBuffer
        let ciphertext := encrypted.take (encrypted.length - 16)
        let authTag := encrypted.drop (encrypted.length - 16)
        some (arrayBufferToHex salt ++ arrayBufferToHex iv ++
          arrayBufferToHex authTag ++ arrayBufferToHex ciphertext)
  | _, _ => none

/-- The four fixed-width fields parsed by `twoWayDecrypt` (index.js:157-161):
`substring(0, 32)`, `substring(32, 56)`, `substring(56, 88)`, `substring(88)`. -/
structure ParsedRecord where
  saltHex : String
  ivHex : String
  authTagHex : String
  ciphertextHex : String
deriving DecidableEq

/-- Embeds `String.prototype.substring(start, stop)` for `start ≤ stop`
(character indices, clamped to the string length). -/
def jsSubstring (s : String) (start stop : Nat) : String :=
  String.mk ((s.data.take stop).drop start)

/-- Embeds `String.prototype.substring(start)` (from `start` to the end). -/
def jsSubstringFrom (s : String) (start : Nat) : String :=
  String.mk (s.data.drop start)

/-- Embeds the field parsing of `twoWayDecrypt` (index.js:157-161). -/
def parseRecordFields (cypher : String) : ParsedRecord :=
  ⟨jsSubstring cypher 0 32, jsSubstring cypher 32 56,
   jsSubstring cypher 56 88, jsSubstringFrom cypher 88⟩

/-- Embeds `twoWayDecrypt` (index.js:144-196): falsy record or passphrase
short-circuits to `null`; the record is split at hex offsets 32/56/88; each
field is hex-decoded; the key is re-derived; AES-GCM decrypts
`ciphertext ++ authTag`; a falsy (empty) decoded string throws.  Every
thrown error — hex validation, `deriveKey` validation, the platform's
authentication failure — is caught by the surrounding `try`/`catch` and
becomes the same `null` result. -/
def twoWayDecrypt (P : GCMProvider) (cypher : Option String)
    (passphrase : Option String) (options : EncOptions) : Option String :=
  match cypher, passphrase with
  | some cy, some pass =>
    if cy == "" || pass == "" then none
    else
      let iterations := resolveIterations options
      let fields := parseRecordFields cy
      match hexToArrayBuffer fields.saltHex, hexToArrayBuffer fields.ivHex,
          hexToArrayBuffer fields.authTagHex, hexToArrayBuffer fields.ciphertextHex with
      | .ok salt, .ok iv, .ok authTag, .ok ciphertext =>
        match deriveKey pass salt iterations with
        | .error _ => none
        | .ok key =>
          match P.decrypt key iv (ciphertext ++ authTag) with
          | none => none
          | some decryptedBuffer =>
            let decrypted := arrayBufferToString decryptedBuffer
            if decrypted == "" then none else some decrypted
      | _, _, _, _ => none
  | _, _ => none

/-! ### Concrete provider instances

The abstract platform providers are instantiated with simple executable
implementations satisfying the platform contract, so that universally
quantified theorems can be evaluated at concrete inputs. -/

/-- An executable `GCMProvider`: the "ciphertext" is the plaintext and the
tag is 16 zero bytes, verified on decryption.  It satisfies the functional
contract `GCMProvider.Lawful` (it is of course not a real cipher). -/
def mockGCM : GCMProvider where
  encrypt := fun _ _ pt => pt ++ List.replicate 16 0
  decrypt := fun _ _ data =>
    if 16 ≤ data.length ∧ data.drop (data.length - 16) = List.replicate 16 0 then
      some (data.take (data.length - 16))
    else none

/-- An executable `HashProvider` tagging the input with the algorithm name. -/
def mockHash : HashProvider where
  digest := fun alg data => alg ++ ":" ++ data
  md5 := fun data => "MD5:" ++ data

deriving instance DecidableEq for Except

/-- Byte-range invariant of `Uint8Array` contents. -/
def Bytes (bs : List Nat) : Prop := ∀ b ∈ bs, b < 256

instance : DecidablePred Bytes := fun bs =>
  inferInstanceAs (Decidable (∀ b ∈ bs, b < 256))

/-- Lowercase hex digits, the alphabet of `arrayBufferToHex` output. -/
def isLowerHexDigit (c : Char) : Bool :=
  ('0' ≤ c && c ≤ '9') || ('a' ≤ c && c ≤ 'f')

/-! ### Concrete inputs used to instantiate the universally quantified theorems -/

/-- A concrete 28-byte entropy stream (16 salt + 12 IV bytes). -/
def entropy0 : List Nat := List.range 28

/-- Salt drawn from `entropy0` by `twoWayEncrypt`. -/
def saltW : List Nat := entropy0.take SALT_SIZE

/-- IV drawn from `entropy0` by `twoWayEncrypt`. -/
def ivW : List Nat := (entropy0.drop SALT_SIZE).take IV_SIZE

/-- AES-GCM output of the mock provider for the plaintext `"hi"` under the
key derived from `"pw"`, `saltW` and the default iteration count. -/
def encW : List Nat :=
  mockGCM.encrypt ⟨"pw", saltW, 600000⟩ ivW (stringToArrayBuffer (objToString (.str "hi")))

/-- Authentication tag of the concrete run. -/
def tagW : List Nat := encW.drop (encW.length - 16)

/-- Ciphertext of the concrete run. -/
def ctW : List Nat := encW.take (encW.length - 16)

/-- Serialized ciphertext record of the concrete run. -/
def recW : String :=
  arrayBufferToHex saltW ++ arrayBufferToHex ivW ++ arrayBufferToHex tagW ++ arrayBufferToHex ctW

/-! ### Helper lemmas: hex codec -/

theorem hexDigitChar_facts (n : Nat) (h : n < 16) :
    isHexDigitJs (hexDigitChar n) = true ∧ jsIsWhitespace (hexDigitChar n) = false ∧
    hexDigitValue (hexDigitChar n) = n ∧ isLowerHexDigit (hexDigitChar n) = true := by
  interval_cases n <;> decide

theorem mem_byteToHex {c : Char} {b : Nat} (hb : b < 256) (hc : c ∈ byteToHex b) :
    isHexDigitJs c = true ∧ jsIsWhitespace c = false ∧ isLowerHexDigit c = true := by
  have h1 : b / 16 < 16 := by omega
  have h2 : b % 16 < 16 := by omega
  simp only [byteToHex, List.mem_cons, List.not_mem_nil, or_false] at hc
  rcases hc with rfl | rfl
  · exact ⟨(hexDigitChar_facts _ h1).1, (hexDigitChar_facts _ h1).2.1,
      (hexDigitChar_facts _ h1).2.2.2⟩
  · exact ⟨(hexDigitChar_facts _ h2).1, (hexDigitChar_facts _ h2).2.1,
      (hexDigitChar_facts _ h2).2.2.2⟩

theorem length_flatMap_byteToHex (bs : List Nat) :
    (bs.flatMap byteToHex).length = 2 * bs.length := by
  induction bs with
  | nil => rfl
  | cons b bs ih => simp [List.flatMap_cons, byteToHex, ih]; omega

theorem hexPairs_flatMap (bs : List Nat) (h : Bytes bs) :
    hexPairs (bs.flatMap byteToHex) = bs := by
  induction bs with
  | nil => rfl
  | cons b bs ih =>
    have hb : b < 256 := h b (List.mem_cons_self b bs)
    have h1 : b / 16 < 16 := by omega
    have h2 : b % 16 < 16 := by omega
    have hrest : Bytes bs := fun x hx => h x (List.mem_cons_of_mem _ hx)
    rw [List.flatMap_cons]
    have hsplit : byteToHex b ++ bs.flatMap byteToHex =
        hexDigitChar (b / 16) :: hexDigitChar (b % 16) :: bs.flatMap byteToHex := rfl
    rw [hsplit, hexPairs, (hexDigitChar_facts _ h1).2.2.1,
      (hexDigitChar_facts _ h2).2.2.1, ih hrest]
    congr 1
    omega

theorem hexToArrayBuffer_arrayBufferToHex (bs : List Nat) (h : Bytes bs) :
    hexToArrayBuffer (arrayBufferToHex bs) = Except.ok bs := by
  have hmem : ∀ c ∈ bs.flatMap byteToHex,
      isHexDigitJs c = true ∧ jsIsWhitespace c = false ∧ isLowerHexDigit c = true := by
    intro c hc
    rcases List.mem_flatMap.mp hc with ⟨b, hb, hcb⟩
    exact mem_byteToHex (h b hb) hcb
  have hfilter : (bs.flatMap byteToHex).filter (fun c => !(jsIsWhitespace c)) =
      bs.flatMap byteToHex := by
    apply List.filter_eq_self.mpr
    intro c hc
    simp [(hmem c hc).2.1]
  have hlen : (bs.flatMap byteToHex).length % 2 = 0 := by
    rw [length_flatMap_byteToHex]; omega
  have hall : (bs.flatMap byteToHex).all isHexDigitJs = true :=
    List.all_eq_true.mpr fun c hc => (hmem c hc).1
  simp only [hexToArrayBuffer, arrayBufferToHex, hfilter, hlen, hall]
  simp [hexPairs_flatMap bs h]

theorem data_arrayBufferToHex_lowerHex (bs : List Nat) (h : Bytes bs) :
    ∀ c ∈ (arrayBufferToHex bs).data, isLowerHexDigit c = true := by
  intro c hc
  rcases List.mem_flatMap.mp hc with ⟨b, hb, hcb⟩
  exact (mem_byteToHex (h b hb) hcb).2.2

theorem data_length_arrayBufferToHex (bs : List Nat) :
    (arrayBufferToHex bs).data.length = 2 * bs.length :=
  length_flatMap_byteToHex bs

/-! ### Helper lemmas: the mock provider satisfies the platform contract -/

theorem mockGCM_lawful : mockGCM.Lawful := by
  constructor
  · intro key iv pt
    have hlen : (pt ++ List.replicate 16 0).length - 16 = pt.length := by simp
    have hdrop : (pt ++ List.replicate 16 0).drop pt.length = List.replicate 16 0 :=
      List.drop_left pt (List.replicate 16 0)
    have htake : (pt ++ List.replicate 16 0).take pt.length = pt :=
      List.take_left pt (List.replicate 16 0)
    simp [mockGCM, hlen, hdrop, htake]
  · intro key iv pt
    simp [mockGCM]
  · intro key iv pt hpt b hb
    simp only [mockGCM, List.mem_append] at hb
    rcases hb with hb | hb
    · exact hpt b hb
    · have := List.eq_of_mem_replicate hb
      omega

/-! ### Helper lemmas: UTF-8 round-trip -/

theorem char_toNat_lt (c : Char) : c.toNat < 1114112 := by
  rcases c.valid with h | h
  · exact Nat.lt_trans h (by norm_num)
  · exact h.2

theorem utf8EncodeChar_eq (c : Char) :
    (c.toNat < 0x80 ∧ utf8EncodeChar c = [c.toNat]) ∨
    (0x80 ≤ c.toNat ∧ c.toNat < 0x800 ∧
      utf8EncodeChar c = [0xC0 + c.toNat / 64, 0x80 + c.toNat % 64]) ∨
    (0x800 ≤ c.toNat ∧ c.toNat < 0x10000 ∧
      utf8EncodeChar c =
        [0xE0 + c.toNat / 4096, 0x80 + c.toNat / 64 % 64, 0x80 + c.toNat % 64]) ∨
    (0x10000 ≤ c.toNat ∧ c.toNat < 0x110000 ∧
      utf8EncodeChar c = [0xF0 + c.toNat / 262144, 0x80 + c.toNat / 4096 % 64,
        0x80 + c.toNat / 64 % 64, 0x80 + c.toNat % 64]) := by
  have hv := char_toNat_lt c
  by_cases h1 : c.toNat < 0x80
  · exact Or.inl ⟨h1, by simp [utf8EncodeChar, h1]⟩
  · by_cases h2 : c.toNat < 0x800
    · exact Or.inr (Or.inl ⟨by omega, h2, by simp [utf8EncodeChar, h1, h2]⟩)
    · by_cases h3 : c.toNat < 0x10000
      · exact Or.inr (Or.inr (Or.inl ⟨by omega, h3, by simp [utf8EncodeChar, h1, h2, h3]⟩))
      · exact Or.inr (Or.inr (Or.inr ⟨by omega, by omega,
          by simp [utf8EncodeChar, h1, h2, h3]⟩))

theorem utf8EncodeChar_bytes (c : Char) : ∀ b ∈ utf8EncodeChar c, b < 256 := by
  intro b hb
  rcases utf8EncodeChar_eq c with ⟨h1, he⟩ | ⟨h1, h2, he⟩ | ⟨h1, h2, he⟩ | ⟨h1, h2, he⟩ <;>
    rw [he] at hb <;>
    simp only [List.mem_cons, List.not_mem_nil, or_false] at hb
  · omega
  · rcases hb with rfl | rfl <;> omega
  · rcases hb with rfl | rfl | rfl <;> omega
  · rcases hb with rfl | rfl | rfl | rfl <;> omega

theorem stringToArrayBuffer_bytes (s : String) : Bytes (stringToArrayBuffer s) := by
  intro b hb
  rcases List.mem_flatMap.mp hb with ⟨c, _, hcb⟩
  exact utf8EncodeChar_bytes c b hcb

theorem utf8DecodeAux_encode (cs : List Char) :
    ∀ fuel, (cs.flatMap utf8EncodeChar).length ≤ fuel →
      utf8DecodeAux fuel (cs.flatMap utf8EncodeChar) = cs := by
  induction cs with
  | nil =>
    intro fuel _
    cases fuel <;> rfl
  | cons c cs ih =>
    intro fuel hfuel
    rw [List.flatMap_cons] at hfuel ⊢
    rcases utf8EncodeChar_eq c with ⟨h1, he⟩ | ⟨h1, h2, he⟩ | ⟨h1, h2, he⟩ | ⟨h1, h2, he⟩ <;>
      rw [he] at hfuel ⊢ <;>
      simp only [List.cons_append, List.nil_append, List.length_cons] at hfuel ⊢ <;>
      (cases fuel with
       | zero => omega
       | succ f => ?_)
    · rw [utf8DecodeAux, if_pos h1, ih f (by omega), Char.ofNat_toNat]
    · rw [utf8DecodeAux]
      simp only [List.getD_cons_zero, List.length_cons, List.drop_succ_cons, List.drop_zero]
      rw [if_neg (by omega), if_neg (by omega), if_pos (by omega),
        if_pos (show 1 ≤ (cs.flatMap utf8EncodeChar).length + 1 ∧
          isUtf8Cont (0x80 + c.toNat % 64) from ⟨by omega, by constructor <;> omega⟩)]
      rw [show (0xC0 + c.toNat / 64 - 0xC0) * 64 + (0x80 + c.toNat % 64 - 0x80) = c.toNat
        by omega]
      rw [Char.ofNat_toNat, ih f (by omega)]
    · rw [utf8DecodeAux]
      simp only [List.getD_cons_zero, List.getD_cons_succ, List.length_cons,
        List.drop_succ_cons, List.drop_zero]
      rw [if_neg (by omega), if_neg (by omega), if_neg (by omega), if_pos (by omega),
        if_pos (show 2 ≤ (cs.flatMap utf8EncodeChar).length + 1 + 1 ∧
          isUtf8Cont (0x80 + c.toNat / 64 % 64) ∧ isUtf8Cont (0x80 + c.toNat % 64) from
          ⟨by omega, ⟨by omega, by omega⟩, by omega, by omega⟩)]
      rw [show (0xE0 + c.toNat / 4096 - 0xE0) * 4096 + (0x80 + c.toNat / 64 % 64 - 0x80) * 64 +
          (0x80 + c.toNat % 64 - 0x80) = c.toNat by omega]
      rw [Char.ofNat_toNat, ih f (by omega)]
    · rw [utf8DecodeAux]
      simp only [List.getD_cons_zero, List.getD_cons_succ, List.length_cons,
        List.drop_succ_cons, List.drop_zero]
      rw [if_neg (by omega), if_neg (by omega), if_neg (by omega), if_neg (by omega),
        if_pos (by omega),
        if_pos (show 3 ≤ (cs.flatMap utf8EncodeChar).length + 1 + 1 + 1 ∧
          isUtf8Cont (0x80 + c.toNat / 4096 % 64) ∧ isUtf8Cont (0x80 + c.toNat / 64 % 64) ∧
          isUtf8Cont (0x80 + c.toNat % 64) from
          ⟨by omega, ⟨by omega, by omega⟩, ⟨by omega, by omega⟩, by omega, by omega⟩)]
      rw [show (0xF0 + c.toNat / 262144 - 0xF0) * 262144 +
          (0x80 + c.toNat / 4096 % 64 - 0x80) * 4096 +
          (0x80 + c.toNat / 64 % 64 - 0x80) * 64 + (0x80 + c.toNat % 64 - 0x80) = c.toNat
        by omega]
      rw [Char.ofNat_toNat, ih f (by omega)]

theorem arrayBufferToString_stringToArrayBuffer (s : String) :
    arrayBufferToString (stringToArrayBuffer s) = s := by
  rw [arrayBufferToString, stringToArrayBuffer,
    utf8DecodeAux_encode s.data _ (Nat.le_refl _)]

/-! ### Helper lemmas: strings, JSON nonemptiness -/

theorem string_ext (s t : String) (h : s.data = t.data) : s = t := by
  cases s; cases t; exact congrArg String.mk h

theorem string_mk_append (a b : List Char) : String.mk a ++ String.mk b = String.mk (a ++ b) :=
  rfl

theorem string_ne_empty_of_data_ne_nil {s : String} (h : s.data ≠ []) : s ≠ "" :=
  fun he => h (he ▸ rfl)

theorem natDigitsAux_ne_nil (fuel n : Nat) (hf : 1 ≤ fuel) (hn : n ≠ 0) :
    natDigitsAux fuel n ≠ [] := by
  cases fuel with
  | zero => omega
  | succ f =>
    rw [natDigitsAux, if_neg hn]
    simp

theorem natToString_ne_empty (n : Nat) : natToString n ≠ "" := by
  unfold natToString
  split
  · simp
  · exact string_ne_empty_of_data_ne_nil (natDigitsAux_ne_nil n n (by omega) (by assumption))

theorem intToString_ne_empty (i : Int) : intToString i ≠ "" := by
  unfold intToString
  split
  · apply string_ne_empty_of_data_ne_nil
    have : ("-" ++ natToString i.natAbs).data = '-' :: (natToString i.natAbs).data := rfl
    simp [this]
  · exact natToString_ne_empty _

theorem jsonQuote_ne_empty (s : String) : jsonQuote s ≠ "" := by
  apply string_ne_empty_of_data_ne_nil
  show ('"' :: (String.join (s.data.map jsonEscapeChar) ++ "\"").data) ≠ []
  simp

theorem stringify_ne_empty (j : Json) : Json.stringify j ≠ "" := by
  cases j with
  | null => rw [Json.stringify]; simp
  | bool b => cases b <;> rw [Json.stringify] <;> simp
  | num n => rw [Json.stringify]; exact intToString_ne_empty n
  | str s => rw [Json.stringify]; exact jsonQuote_ne_empty s
  | arr es =>
    rw [Json.stringify]
    apply string_ne_empty_of_data_ne_nil
    show ('[' :: (Json.stringifyElems es ++ "]").data) ≠ []
    simp
  | obj ms =>
    rw [Json.stringify]
    apply string_ne_empty_of_data_ne_nil
    show ('\x7b' :: (Json.stringifyMembers ms ++ "\x7d").data) ≠ []
    simp

theorem objToString_ne_empty (d : PlainData) (hd : d.isFalsy = false) : objToString d ≠ "" := by
  cases d with
  | str s =>
    simp only [PlainData.isFalsy, beq_eq_false_iff_ne] at hd
    exact hd
  | objData j => exact stringify_ne_empty j

/-! ### Helper lemmas: deriveKey -/

theorem deriveKey_ok (p : String) (salt : List Nat) (q : Rat) (hp : p ≠ "")
    (hs : salt.length = 16) (hq : (IterValue.num q).isPositiveInteger = true) :
    deriveKey p salt (.num q) = Except.ok ⟨p, salt, q⟩ := by
  simp only [IterValue.isPositiveInteger] at hq
  simp [deriveKey, hp, hs, hq]

theorem deriveKey_invalid_iterations (p : String) (salt : List Nat) (it : IterValue)
    (h : it.isPositiveInteger = false) : ∀ k, deriveKey p salt it ≠ Except.ok k := by
  intro k
  unfold deriveKey
  split
  · simp
  · split
    · simp
    · cases it with
      | protoMember name => simp
      | num q =>
        simp only [IterValue.isPositiveInteger] at h
        simp [h]

/-! ### Helper lemmas: record framing -/

theorem parseRecordFields_append (A B C D : List Char)
    (hA : A.length = 32) (hB : B.length = 24) (hC : C.length = 32) :
    parseRecordFields (String.mk (A ++ B ++ C ++ D)) =
      ⟨String.mk A, String.mk B, String.mk C, String.mk D⟩ := by
  have hAB : (A ++ B).length = 56 := by simp [hA, hB]
  have hABC : (A ++ B ++ C).length = 88 := by simp [hA, hB, hC]
  have htake32 : (A ++ B ++ C ++ D).take 32 = A := by
    rw [show A ++ B ++ C ++ D = A ++ (B ++ C ++ D) by simp [List.append_assoc]]
    exact List.take_left' hA
  have htake56 : (A ++ B ++ C ++ D).take 56 = A ++ B := by
    rw [show A ++ B ++ C ++ D = (A ++ B) ++ (C ++ D) by simp [List.append_assoc]]
    exact List.take_left' hAB
  have htake88 : (A ++ B ++ C ++ D).take 88 = A ++ B ++ C :=
    List.take_left' hABC
  unfold parseRecordFields jsSubstring jsSubstringFrom
  simp only [ParsedRecord.mk.injEq]
  refine ⟨?_, ?_, ?_, ?_⟩
  · rw [htake32, List.drop_zero]
  · rw [htake56, List.drop_left' hA]
  · rw [htake88, List.drop_left' hAB]
  · rw [List.drop_left' hABC]

/-! ### Helper lemmas: the encryption run -/

theorem twoWayEncrypt_some (P : GCMProvider) (entropy : List Nat) (d : PlainData)
    (pass : String) (opts : EncOptions) (q : Rat)
    (hd : d.isFalsy = false) (hpass : pass ≠ "")
    (hres : resolveIterations opts = IterValue.num q)
    (hq : (IterValue.num q).isPositiveInteger = true)
    (hslen : (entropy.take SALT_SIZE).length = 16) :
    twoWayEncrypt P entropy (some d) (some pass) opts =
      some (arrayBufferToHex (entropy.take SALT_SIZE) ++
        arrayBufferToHex ((entropy.drop SALT_SIZE).take IV_SIZE) ++
        arrayBufferToHex ((P.encrypt ⟨pass, entropy.take SALT_SIZE, q⟩
            ((entropy.drop SALT_SIZE).take IV_SIZE)
            (stringToArrayBuffer (objToString d))).drop
          ((P.encrypt ⟨pass, entropy.take SALT_SIZE, q⟩ ((entropy.drop SALT_SIZE).take IV_SIZE)
            (stringToArrayBuffer (objToString d))).length - 16)) ++
        arrayBufferToHex ((P.encrypt ⟨pass, entropy.take SALT_SIZE, q⟩
            ((entropy.drop SALT_SIZE).take IV_SIZE)
            (stringToArrayBuffer (objToString d))).take
          ((P.encrypt ⟨pass, entropy.take SALT_SIZE, q⟩ ((entropy.drop SALT_SIZE).take IV_SIZE)
            (stringToArrayBuffer (objToString d))).length - 16))) := by
  unfold twoWayEncrypt
  rw [hres]
  simp only [hd, beq_eq_false_iff_ne.mpr hpass, Bool.or_self, Bool.false_eq_true, if_false,
    deriveKey_ok pass _ q hpass hslen hq]

theorem parseRecordFields_hex (salt iv tag ct : List Nat)
    (hs : salt.length = 16) (hi : iv.length = 12) (ht : tag.length = 16) :
    parseRecordFields (arrayBufferToHex salt ++ arrayBufferToHex iv ++
      arrayBufferToHex tag ++ arrayBufferToHex ct) =
      ⟨arrayBufferToHex salt, arrayBufferToHex iv, arrayBufferToHex tag, arrayBufferToHex ct⟩ := by
  show parseRecordFields (String.mk (salt.flatMap byteToHex ++ iv.flatMap byteToHex ++
      tag.flatMap byteToHex ++ ct.flatMap byteToHex)) = _
  rw [parseRecordFields_append _ _ _ _
    (by rw [length_flatMap_byteToHex, hs]) (by rw [length_flatMap_byteToHex, hi])
    (by rw [length_flatMap_byteToHex, ht])]
  rfl

theorem hexRecord_ne_empty (salt iv tag ct : List Nat) (hs : salt.length = 16) :
    (arrayBufferToHex salt ++ arrayBufferToHex iv ++
      arrayBufferToHex tag ++ arrayBufferToHex ct) ≠ "" := by
  apply string_ne_empty_of_data_ne_nil
  show salt.flatMap byteToHex ++ iv.flatMap byteToHex ++
      tag.flatMap byteToHex ++ ct.flatMap byteToHex ≠ []
  intro h
  have := congrArg List.length h
  rw [List.length_append, List.length_append, List.length_append,
    length_flatMap_byteToHex, hs] at this
  simp at this

theorem twoWayDecrypt_of_run (P : GCMProvider) (hP : P.Lawful) (salt iv pt : List Nat)
    (pass : String) (opts : EncOptions) (q : Rat)
    (hpass : pass ≠ "") (hres : resolveIterations opts = IterValue.num q)
    (hq : (IterValue.num q).isPositiveInteger = true)
    (hs : salt.length = 16) (hi : iv.length = 12)
    (hbs : Bytes salt) (hbi : Bytes iv) (hbpt : Bytes pt)
    (hne : arrayBufferToString pt ≠ "") :
    twoWayDecrypt P
      (some (arrayBufferToHex salt ++ arrayBufferToHex iv ++
        arrayBufferToHex ((P.encrypt ⟨pass, salt, q⟩ iv pt).drop
          ((P.encrypt ⟨pass, salt, q⟩ iv pt).length - 16)) ++
        arrayBufferToHex ((P.encrypt ⟨pass, salt, q⟩ iv pt).take
          ((P.encrypt ⟨pass, salt, q⟩ iv pt).length - 16))))
      (some pass) opts = some (arrayBufferToString pt) := by
  set enc := P.encrypt ⟨pass, salt, q⟩ iv pt with henc
  have henclen : enc.length = pt.length + 16 := hP.length_encrypt _ _ _
  have hbenc : Bytes enc := hP.bytes_encrypt _ _ _ hbpt
  set tag := enc.drop (enc.length - 16) with htagdef
  set ct := enc.take (enc.length - 16) with hctdef
  have htlen : tag.length = 16 := by
    rw [htagdef, List.length_drop]
    omega
  have hbtag : Bytes tag := fun b hb => hbenc b (List.mem_of_mem_drop hb)
  have hbct : Bytes ct := fun b hb => hbenc b (List.mem_of_mem_take hb)
  unfold twoWayDecrypt
  rw [hres]
  simp only [beq_eq_false_iff_ne.mpr (hexRecord_ne_empty salt iv tag ct hs),
    beq_eq_false_iff_ne.mpr hpass, Bool.or_self, Bool.false_eq_true, if_false]
  rw [parseRecordFields_hex salt iv tag ct hs hi htlen]
  simp only [hexToArrayBuffer_arrayBufferToHex salt hbs,
    hexToArrayBuffer_arrayBufferToHex iv hbi,
    hexToArrayBuffer_arrayBufferToHex tag hbtag,
    hexToArrayBuffer_arrayBufferToHex ct hbct]
  rw [deriveKey_ok pass salt q hpass hs hq]
  simp only [hctdef, htagdef, List.take_append_drop, ← henc, hP.roundtrip]
  simp [beq_eq_false_iff_ne.mpr hne]

/-- C1 (amended): for every truthy input — non-empty text or a structured
value — every non-empty passphrase, matching options on both sides that
resolve to a positive-integer iteration count, and a platform provider
satisfying the AES-GCM contract, `twoWayDecrypt` of `twoWayEncrypt` returns
exactly the canonical text form of the input (the string itself for text,
its JSON serialization for structured values).  The entropy hypotheses state
that the platform RNG supplies the 28 random bytes (16 salt + 12 IV).  (The
claim as frozen also quantifies over falsy data such as `""` and over
options with non-positive-integer iteration counts, where both calls return
the null sentinel instead — see the counterexample.) -/
theorem twoWayRoundtrip (P : GCMProvider) (hP : P.Lawful) (entropy : List Nat)
    (d : PlainData) (pass : String) (opts : EncOptions) (q : Rat)
    (hd : d.isFalsy = false) (hpass : pass ≠ "")
    (hres : resolveIterations opts = IterValue.num q)
    (hq : (IterValue.num q).isPositiveInteger = true)
    (hent : 28 ≤ entropy.length) (hbytes : Bytes entropy) :
    twoWayDecrypt P (twoWayEncrypt P entropy (some d) (some pass) opts) (some pass) opts =
      some (objToString d) := by
  have hslen : (entropy.take SALT_SIZE).length = 16 := by
    rw [List.length_take, SALT_SIZE]
    omega
  have hivlen : ((entropy.drop SALT_SIZE).take IV_SIZE).length = 12 := by
    rw [List.length_take, List.length_drop, SALT_SIZE, IV_SIZE]
    omega
  rw [twoWayEncrypt_some P entropy d pass opts q hd hpass hres hq hslen]
  have hbs : Bytes (entropy.take SALT_SIZE) := fun b hb => hbytes b (List.mem_of_mem_take hb)
  have hbi : Bytes ((entropy.drop SALT_SIZE).take IV_SIZE) := fun b hb =>
    hbytes b (List.mem_of_mem_drop (List.mem_of_mem_take hb))
  have hne : arrayBufferToString (stringToArrayBuffer (objToString d)) ≠ "" := by
    rw [arrayBufferToString_stringToArrayBuffer]
    exact objToString_ne_empty d hd
  rw [twoWayDecrypt_of_run P hP _ _ _ pass opts q hpass hres hq hslen hivlen hbs hbi
    (stringToArrayBuffer_bytes _) hne, arrayBufferToString_stringToArrayBuffer]

/-! ### The claims -/

/-- C3: both `twoWayEncrypt` and `twoWayDecrypt` resolve the PBKDF2
iteration count with this priority: an explicit numeric `options.iterations`
wins over a named `options.securityLevel`, which wins over the default; the
named levels map `fast = 1000`, `standard = 10000`, `high = 100000`,
`maximum = 600000`; the default is 600000 (maximum).  The two public
functions contain the resolution expression verbatim (embedded once as
`resolveIterations`); the last two conjuncts state the numeric override's
priority at the API level. -/
theorem iteration_resolution_priority :
    (∀ (q : Rat) (sl : Option String), resolveIterations ⟨some q, sl⟩ = IterValue.num q) ∧
    resolveIterations ⟨none, some "fast"⟩ = IterValue.num 1000 ∧
    resolveIterations ⟨none, some "standard"⟩ = IterValue.num 10000 ∧
    resolveIterations ⟨none, some "high"⟩ = IterValue.num 100000 ∧
    resolveIterations ⟨none, some "maximum"⟩ = IterValue.num 600000 ∧
    resolveIterations ⟨none, none⟩ = IterValue.num 600000 ∧
    (∀ (q : Rat) (sl : Option String) (P : GCMProvider) (entropy : List Nat)
        (data : Option PlainData) (pass : Option String),
      twoWayEncrypt P entropy data pass ⟨some q, sl⟩ =
        twoWayEncrypt P entropy data pass ⟨some q, none⟩) ∧
    (∀ (q : Rat) (sl : Option String) (P : GCMProvider) (cy pass : Option String),
      twoWayDecrypt P cy pass ⟨some q, sl⟩ = twoWayDecrypt P cy pass ⟨some q, none⟩) := by
  refine ⟨fun q sl => rfl, by decide, by decide, by decide, by decide, by decide, ?_, ?_⟩
  · intro q sl P entropy data pass
    rfl
  · intro q sl P cy pass
    rfl

/-- C4 (amended): a `securityLevel` string that is neither a recognized
level name nor the name of a member that object literals inherit from
`Object.prototype` silently falls through to the default iteration count
600000, and the two-way operations behave exactly as with empty options.
(The claim as frozen fails for inherited member names such as `"toString"`:
there the JS lookup `SECURITY_LEVELS[name]` yields the truthy inherited
function, which is then used as the iteration count and rejected by
`deriveKey`, so the operations return null instead of using the default —
see the counterexample.) -/
theorem securityLevel_unknown_falls_to_default (name : String)
    (h1 : name ∉ ["maximum", "high", "standard", "fast"])
    (h2 : name ∉ objectPrototypeKeys) :
    resolveIterations ⟨none, some name⟩ = IterValue.num 600000 ∧
    (∀ (P : GCMProvider) (entropy : List Nat) (data : Option PlainData)
        (pass : Option String),
      twoWayEncrypt P entropy data pass ⟨none, some name⟩ =
        twoWayEncrypt P entropy data pass ⟨none, none⟩) ∧
    (∀ (P : GCMProvider) (cy pass : Option String),
      twoWayDecrypt P cy pass ⟨none, some name⟩ = twoWayDecrypt P cy pass ⟨none, none⟩) := by
  simp only [List.mem_cons, List.not_mem_nil, or_false, not_or] at h1
  obtain ⟨hm, hh, hs, hf⟩ := h1
  have hres : resolveIterations ⟨none, some name⟩ = resolveIterations ⟨none, none⟩ := by
    by_cases hne : name = ""
    · subst hne; rfl
    · have hSL : SECURITY_LEVELS name = none := by
        unfold SECURITY_LEVELS
        rw [if_neg hm, if_neg hh, if_neg hs, if_neg hf, if_neg h2]
      show resolveIterations ⟨none, some name⟩ = _
      simp only [resolveIterations]
      rw [if_pos hne, hSL]
  refine ⟨hres.trans (by decide), ?_, ?_⟩
  · intro P entropy data pass
    unfold twoWayEncrypt
    rw [hres]
  · intro P cy pass
    unfold twoWayDecrypt
    rw [hres]

/-- C4 counterexample: with `securityLevel = "toString"` (not a recognized
level name) `twoWayEncrypt` returns null, while the same call with default
options succeeds — the unrecognized name does not silently fall through to
the default iteration count. -/
theorem securityLevel_toString_not_default :
    twoWayEncrypt mockGCM entropy0 (some (.str "hi")) (some "pw") ⟨none, some "toString"⟩ =
      none ∧
    twoWayEncrypt mockGCM entropy0 (some (.str "hi")) (some "pw") ⟨none, none⟩ ≠ none := by
  constructor
  · decide
  · decide

/-- C4 witness: a plain unrecognized name resolves to the default count. -/
theorem securityLevel_unknown_falls_to_default_witness :
    resolveIterations ⟨none, some "bogus"⟩ = IterValue.num 600000 :=
  (securityLevel_unknown_falls_to_default "bogus" (by decide) (by decide)).1

/-- C5: `twoWayEncrypt` returns the null sentinel on empty or absent data
and on an empty or absent passphrase; `twoWayDecrypt` likewise for its
record and passphrase; `oneWayEncrypt` returns the undefined sentinel on
empty or absent data.  In the embedding both JS sentinels (`null`,
`undefined`) are `none`; no error is raised in any of these cases (the
embedding is total). -/
theorem empty_input_is_sentinel :
    (∀ (P : GCMProvider) (entropy : List Nat) (pass : Option String) (opts : EncOptions),
      twoWayEncrypt P entropy none pass opts = none) ∧
    (∀ (P : GCMProvider) (entropy : List Nat) (pass : Option String) (opts : EncOptions),
      twoWayEncrypt P entropy (some (.str "")) pass opts = none) ∧
    (∀ (P : GCMProvider) (entropy : List Nat) (data : Option PlainData) (opts : EncOptions),
      twoWayEncrypt P entropy data none opts = none) ∧
    (∀ (P : GCMProvider) (entropy : List Nat) (data : Option PlainData) (opts : EncOptions),
      twoWayEncrypt P entropy data (some "") opts = none) ∧
    (∀ (P : GCMProvider) (pass : Option String) (opts : EncOptions),
      twoWayDecrypt P none pass opts = none) ∧
    (∀ (P : GCMProvider) (pass : Option String) (opts : EncOptions),
      twoWayDecrypt P (some "") pass opts = none) ∧
    (∀ (P : GCMProvider) (cy : Option String) (opts : EncOptions),
      twoWayDecrypt P cy none opts = none) ∧
    (∀ (P : GCMProvider) (cy : Option String) (opts : EncOptions),
      twoWayDecrypt P cy (some "") opts = none) ∧
    (∀ (H : HashProvider) (sha : Bool), oneWayEncrypt H none sha = none) ∧
    (∀ (H : HashProvider) (sha : Bool), oneWayEncrypt H (some "") sha = none) := by
  refine ⟨?_, ?_, ?_, ?_, ?_, ?_, ?_, ?_, ?_, ?_⟩
  · intro P entropy pass opts; cases pass <;> rfl
  · intro P entropy pass opts; cases pass <;> rfl
  · intro P entropy data opts; cases data <;> rfl
  · intro P entropy data opts
    cases data with
    | none => rfl
    | some d => simp [twoWayEncrypt]
  · intro P pass opts; cases pass <;> rfl
  · intro P pass opts; cases pass <;> rfl
  · intro P cy opts; cases cy <;> rfl
  · intro P cy opts
    cases cy with
    | none => rfl
    | some c => simp [twoWayDecrypt]
  · intro H sha; rfl
  · intro H sha; rfl

/-- C8 (amended): the conversion functions are total; `hexToArrayBuffer`
fails exactly when, after the whitespace removal the function itself
performs first (`hex.replace(/\s/g, '')`), the remaining string has an odd
number of characters or contains a character outside `[0-9a-fA-F]`.  (The
claim as frozen — failure exactly on odd length or a non-hex character of
the input itself — is refuted by inputs whose whitespace is stripped before
validation, see the counterexample.) -/
theorem hexToArrayBuffer_error_iff (hex : String) :
    (∃ e, hexToArrayBuffer hex = Except.error e) ↔
      ((hex.data.filter (fun c => !(jsIsWhitespace c))).length % 2 ≠ 0 ∨
        ¬ ((hex.data.filter (fun c => !(jsIsWhitespace c))).all isHexDigitJs = true)) := by
  by_cases h1 : (hex.data.filter (fun c => !(jsIsWhitespace c))).length % 2 ≠ 0
  · simp [hexToArrayBuffer, h1]
  · by_cases h2 : (hex.data.filter (fun c => !(jsIsWhitespace c))).all isHexDigitJs = true
    · simp [hexToArrayBuffer, h1, h2]
    · simp [hexToArrayBuffer, h1, h2]

/-- C8 counterexample: `"a b"` has odd length and contains a non-hex
character, so by the claim `hexToArrayBuffer` should fail on it; the code
strips the whitespace first and successfully parses `0xab`. -/
theorem hexToArrayBuffer_whitespace_counterexample :
    hexToArrayBuffer "a b" = Except.ok [171] ∧
    "a b".length % 2 = 1 ∧ (∃ ch ∈ "a b".data, isHexDigitJs ch = false) := by
  refine ⟨by decide, by decide, ?_⟩
  exact ⟨' ', by decide, by decide⟩

/-- C9: `deriveKey` fails (with a thrown error, embedded as `Except.error`)
exactly when a precondition is violated: empty passphrase, salt not exactly
16 bytes, or an iteration count that is not a positive integer.  After the
validation the trusted platform's PBKDF2 produces the key. -/
theorem deriveKey_error_iff (p : String) (salt : List Nat) (it : IterValue) :
    (∃ e, deriveKey p salt it = Except.error e) ↔
      (p = "" ∨ salt.length ≠ 16 ∨ it.isPositiveInteger = false) := by
  unfold deriveKey
  by_cases h1 : p = ""
  · simp [h1]
  · by_cases h2 : salt.length ≠ 16
    · simp [h1, h2]
    · cases it with
      | protoMember n => simp [h1, h2, IterValue.isPositiveInteger]
      | num q =>
        by_cases h3 : (q.den == 1 && decide (1 ≤ q)) = true
        · simp [h1, h2, h3, IterValue.isPositiveInteger]
        · simp [h1, h2, h3, IterValue.isPositiveInteger]

/-- C10: a numeric `options.iterations` always takes priority over any
`securityLevel`; when the number is not a positive integer (zero, negative,
or fractional) both `twoWayEncrypt` and `twoWayDecrypt` return the null
sentinel — `deriveKey`'s validation error is caught at the public boundary —
rather than falling back to a named level or the default count. -/
theorem iterations_numeric_override (q : Rat) (sl : Option String) :
    resolveIterations ⟨some q, sl⟩ = IterValue.num q ∧
    (¬(q.den = 1 ∧ 1 ≤ q) →
      (∀ (P : GCMProvider) (entropy : List Nat) (data : Option PlainData)
          (pass : Option String),
        twoWayEncrypt P entropy data pass ⟨some q, sl⟩ = none) ∧
      (∀ (P : GCMProvider) (cy pass : Option String),
        twoWayDecrypt P cy pass ⟨some q, sl⟩ = none)) := by
  refine ⟨rfl, fun hinv => ?_⟩
  have hpi : (IterValue.num q).isPositiveInteger = false := by
    rw [IterValue.isPositiveInteger]
    cases hc : (q.den == 1 && decide (1 ≤ q)) with
    | false => rfl
    | true =>
      rw [Bool.and_eq_true] at hc
      exact absurd ⟨eq_of_beq hc.1, of_decide_eq_true hc.2⟩ hinv
  constructor
  · intro P entropy data pass
    cases data with
    | none => rfl
    | some d =>
      cases pass with
      | none => rfl
      | some p =>
        simp only [twoWayEncrypt]
        split
        · rfl
        · split
          · rfl
          · rename_i key hk
            exact absurd hk (deriveKey_invalid_iterations _ _ _ hpi key)
  · intro P cy pass
    cases cy with
    | none => rfl
    | some c =>
      cases pass with
      | none => rfl
      | some p =>
        simp only [twoWayDecrypt]
        split
        · rfl
        · split
          · split
            · rfl
            · rename_i key hk
              exact absurd hk (deriveKey_invalid_iterations _ _ _ hpi key)
          · rfl

/-- C10 witness: evaluated at the non-positive integer `0`. -/
theorem iterations_numeric_override_witness :
    resolveIterations ⟨some 0, none⟩ = IterValue.num 0 ∧
    twoWayEncrypt mockGCM entropy0 (some (.str "hi")) (some "pw") ⟨some 0, none⟩ = none ∧
    twoWayDecrypt mockGCM (some "ff") (some "pw") ⟨some 0, none⟩ = none :=
  ⟨(iterations_numeric_override 0 none).1,
   ((iterations_numeric_override 0 none).2 (by decide)).1 mockGCM entropy0 _ _,
   ((iterations_numeric_override 0 none).2 (by decide)).2 mockGCM _ _⟩

/-- C1 counterexample: the round-trip claim fails at the empty string (a
text value, for which encryption is a null no-op) and at matching options
carrying the numeric iteration count 0 (where key derivation fails and both
calls return null). -/
theorem twoWayRoundtrip_counterexample :
    twoWayDecrypt mockGCM
        (twoWayEncrypt mockGCM entropy0 (some (.str "")) (some "pw") ⟨none, none⟩)
        (some "pw") ⟨none, none⟩ ≠ some (objToString (.str "")) ∧
    twoWayDecrypt mockGCM
        (twoWayEncrypt mockGCM entropy0 (some (.str "hi")) (some "pw") ⟨some 0, none⟩)
        (some "pw") ⟨some 0, none⟩ ≠ some (objToString (.str "hi")) := by
  constructor
  · decide
  · decide

/-- C1 witness: the amended round trip evaluated on the mock provider. -/
theorem twoWayRoundtrip_witness :
    twoWayDecrypt mockGCM
      (twoWayEncrypt mockGCM entropy0 (some (.str "hi")) (some "pw") ⟨none, none⟩)
      (some "pw") ⟨none, none⟩ = some "hi" :=
  twoWayRoundtrip mockGCM mockGCM_lawful entropy0 (.str "hi") "pw" ⟨none, none⟩ 600000
    (by decide) (by decide) (by decide) (by decide) (by decide) (by decide)

/-- C2: a successful `twoWayEncrypt` returns the single string
`hex(salt) + hex(iv) + hex(authTag) + hex(ciphertext)` with no delimiters,
the salt occupying hex characters [0, 32), the IV [32, 56), the tag
[56, 88), the ciphertext the remainder, every character a lowercase hex
digit; and `parseRecordFields` — the field parsing `twoWayDecrypt` performs —
splits the record at exactly these boundaries, recovering the four fields. -/
theorem serialized_record_format (P : GCMProvider) (hP : P.Lawful) (entropy : List Nat)
    (d : PlainData) (pass : String) (opts : EncOptions) (q : Rat)
    (salt iv enc tag ct : List Nat) (r : String)
    (hd : d.isFalsy = false) (hpass : pass ≠ "")
    (hres : resolveIterations opts = IterValue.num q)
    (hq : (IterValue.num q).isPositiveInteger = true)
    (hent : 28 ≤ entropy.length) (hbytes : Bytes entropy)
    (hsalt : salt = entropy.take SALT_SIZE)
    (hiv : iv = (entropy.drop SALT_SIZE).take IV_SIZE)
    (henc : enc = P.encrypt ⟨pass, salt, q⟩ iv (stringToArrayBuffer (objToString d)))
    (htag : tag = enc.drop (enc.length - 16))
    (hct : ct = enc.take (enc.length - 16))
    (hr : r = arrayBufferToHex salt ++ arrayBufferToHex iv ++
      arrayBufferToHex tag ++ arrayBufferToHex ct) :
    twoWayEncrypt P entropy (some d) (some pass) opts = some r ∧
    (arrayBufferToHex salt).data.length = 32 ∧
    (arrayBufferToHex iv).data.length = 24 ∧
    (arrayBufferToHex tag).data.length = 32 ∧
    (∀ ch ∈ r.data, isLowerHexDigit ch = true) ∧
    parseRecordFields r =
      ⟨arrayBufferToHex salt, arrayBufferToHex iv, arrayBufferToHex tag,
       arrayBufferToHex ct⟩ := by
  subst hsalt hiv henc htag hct hr
  have hslen : (entropy.take SALT_SIZE).length = 16 := by
    rw [List.length_take, SALT_SIZE]
    omega
  have hivlen : ((entropy.drop SALT_SIZE).take IV_SIZE).length = 12 := by
    rw [List.length_take, List.length_drop, SALT_SIZE, IV_SIZE]
    omega
  have henclen := hP.length_encrypt ⟨pass, entropy.take SALT_SIZE, q⟩
    ((entropy.drop SALT_SIZE).take IV_SIZE) (stringToArrayBuffer (objToString d))
  have htlen : ((P.encrypt ⟨pass, entropy.take SALT_SIZE, q⟩
      ((entropy.drop SALT_SIZE).take IV_SIZE)
      (stringToArrayBuffer (objToString d))).drop
        ((P.encrypt ⟨pass, entropy.take SALT_SIZE, q⟩ ((entropy.drop SALT_SIZE).take IV_SIZE)
          (stringToArrayBuffer (objToString d))).length - 16)).length = 16 := by
    rw [List.length_drop]
    omega
  have hbs : Bytes (entropy.take SALT_SIZE) := fun b hb => hbytes b (List.mem_of_mem_take hb)
  have hbi : Bytes ((entropy.drop SALT_SIZE).take IV_SIZE) := fun b hb =>
    hbytes b (List.mem_of_mem_drop (List.mem_of_mem_take hb))
  have hbenc : Bytes (P.encrypt ⟨pass, entropy.take SALT_SIZE, q⟩
      ((entropy.drop SALT_SIZE).take IV_SIZE) (stringToArrayBuffer (objToString d))) :=
    hP.bytes_encrypt _ _ _ (stringToArrayBuffer_bytes _)
  refine ⟨twoWayEncrypt_some P entropy d pass opts q hd hpass hres hq hslen, ?_, ?_, ?_, ?_, ?_⟩
  · rw [data_length_arrayBufferToHex, hslen]
  · rw [data_length_arrayBufferToHex, hivlen]
  · rw [data_length_arrayBufferToHex, htlen]
  · intro ch hch
    simp only [String.data_append, List.mem_append] at hch
    rcases hch with ((hch | hch) | hch) | hch
    · exact data_arrayBufferToHex_lowerHex _ hbs ch hch
    · exact data_arrayBufferToHex_lowerHex _ hbi ch hch
    · exact data_arrayBufferToHex_lowerHex _
        (fun b hb => hbenc b (List.mem_of_mem_drop hb)) ch hch
    · exact data_arrayBufferToHex_lowerHex _
        (fun b hb => hbenc b (List.mem_of_mem_take hb)) ch hch
  · exact parseRecordFields_hex _ _ _ _ hslen hivlen htlen

/-- C2 witness: the record of the concrete run on the mock provider. -/
theorem serialized_record_format_witness :
    twoWayEncrypt mockGCM entropy0 (some (.str "hi")) (some "pw") ⟨none, none⟩ =
      some recW :=
  (serialized_record_format mockGCM mockGCM_lawful entropy0 (.str "hi") "pw" ⟨none, none⟩
    600000 saltW ivW encW tagW ctW recW (by decide) (by decide) (by decide) (by decide)
    (by decide) (by decide) rfl rfl rfl rfl rfl rfl).1

/-- C7: `oneWayCompare` returns its `cypher` argument unchanged (not a
boolean) whenever either input is falsy; otherwise it returns the boolean
string-equality of `cypher` with the recomputed hash of `compare` under the
same algorithm (SHA-256 when `sha`, MD5 otherwise). -/
theorem oneWayCompare_passthrough_or_equality :
    (∀ (H : HashProvider) (cypher compare : Option String) (sha : Bool),
      (falsyStr cypher || falsyStr compare) = true →
      oneWayCompare H cypher compare sha = CompareResult.passthrough cypher) ∧
    (∀ (H : HashProvider) (c m : String) (sha : Bool), c ≠ "" → m ≠ "" →
      oneWayCompare H (some c) (some m) sha =
        CompareResult.bool (c == (if sha then H.digest "SHA-256" m else H.md5 m))) := by
  constructor
  · intro H cypher compare sha hfalsy
    unfold oneWayCompare
    rw [if_pos hfalsy]
  · intro H c m sha hc hm
    unfold oneWayCompare
    rw [if_neg (by simp [falsyStr, hc, hm])]
    cases sha <;> simp [oneWayEncrypt, hashData, hm, Except.toOption]

/-- C7 witness: both branches evaluated on the mock digest provider. -/
theorem oneWayCompare_witness :
    oneWayCompare mockHash none (some "x") true = CompareResult.passthrough none ∧
    oneWayCompare mockHash (some "h") (some "x") true =
      CompareResult.bool ("h" ==
        (if true then mockHash.digest "SHA-256" "x" else mockHash.md5 "x")) :=
  ⟨oneWayCompare_passthrough_or_equality.1 mockHash none (some "x") true (by decide),
   oneWayCompare_passthrough_or_equality.2 mockHash "h" "x" true (by decide) (by decide)⟩

/-- C6: `twoWayDecrypt` returns `some` only when the entire authenticated
pipeline succeeds — non-falsy inputs, all four hex fields decode, the key
derives, the platform's AES-GCM authentication accepts, and the decoded
plaintext is non-empty — and the returned string is exactly the decoded
plaintext of that run.  Contrapositively, every failure — wrong passphrase
or iteration count (authentication rejection by the platform), tampered tag
or ciphertext, malformed or short record, invalid options — produces the
one observably identical null sentinel, and the embedding is total, so no
exception escapes. -/
theorem twoWayDecrypt_some_iff_chain (P : GCMProvider) (cypher passphrase : Option String)
    (opts : EncOptions) (s : String)
    (h : twoWayDecrypt P cypher passphrase opts = some s) :
    ∃ cy pass salt iv tag ct key pt,
      cypher = some cy ∧ passphrase = some pass ∧ ¬(cy = "" ∨ pass = "") ∧
      hexToArrayBuffer (parseRecordFields cy).saltHex = Except.ok salt ∧
      hexToArrayBuffer (parseRecordFields cy).ivHex = Except.ok iv ∧
      hexToArrayBuffer (parseRecordFields cy).authTagHex = Except.ok tag ∧
      hexToArrayBuffer (parseRecordFields cy).ciphertextHex = Except.ok ct ∧
      deriveKey pass salt (resolveIterations opts) = Except.ok key ∧
      P.decrypt key iv (ct ++ tag) = some pt ∧
      s = arrayBufferToString pt ∧ s ≠ "" := by
  cases cypher with
  | none => exact absurd h (by simp [twoWayDecrypt])
  | some cy =>
    cases passphrase with
    | none => exact absurd h (by simp [twoWayDecrypt])
    | some pass =>
      simp only [twoWayDecrypt] at h
      split at h
      · exact absurd h (by simp)
      · rename_i hguard
        split at h
        · rename_i salt iv tag ct hsalt hiv htag hct
          split at h
          · exact absurd h (by simp)
          · rename_i key hk
            split at h
            · exact absurd h (by simp)
            · rename_i pt hpt
              split at h
              · exact absurd h (by simp)
              · rename_i hne
                refine ⟨cy, pass, salt, iv, tag, ct, key, pt, rfl, rfl, ?_, hsalt, hiv,
                  htag, hct, hk, hpt, ?_, ?_⟩
                · simpa [not_or] using hguard
                · exact (Option.some.inj h).symm
                · rw [← Option.some.inj h]
                  simpa using hne
        · exact absurd h (by simp)

/-- C6 witness: the success chain extracted from a concrete successful
decryption on the mock provider. -/
theorem twoWayDecrypt_some_iff_chain_witness :
    ∃ cy pass salt iv tag ct key pt,
      (some recW : Option String) = some cy ∧ (some "pw" : Option String) = some pass ∧
      ¬(cy = "" ∨ pass = "") ∧
      hexToArrayBuffer (parseRecordFields cy).saltHex = Except.ok salt ∧
      hexToArrayBuffer (parseRecordFields cy).ivHex = Except.ok iv ∧
      hexToArrayBuffer (parseRecordFields cy).authTagHex = Except.ok tag ∧
      hexToArrayBuffer (parseRecordFields cy).ciphertextHex = Except.ok ct ∧
      deriveKey pass salt (resolveIterations ⟨none, none⟩) = Except.ok key ∧
      mockGCM.decrypt key iv (ct ++ tag) = some pt ∧
      "hi" = arrayBufferToString pt ∧ "hi" ≠ "" :=
  twoWayDecrypt_some_iff_chain mockGCM (some recW) (some "pw") ⟨none, none⟩ "hi" (by decide)
